import Mathlib

/-!
# Tetris standalone: a shallow embedding of the game-rule engine

A Lean model of the core of `tetris_standalone.py`: the shape catalog
(`PIECES`), live pieces (`Piece`), the board grid (`Board.*` operations on a
grid of optional piece kinds), and the match engine (`Tetris.*`).

Modelling conventions:
* the Python grid `board.grid` is `List (List (Option PieceType))`
  (`grid[row][col]`, `None` = empty); `BOARD_WIDTH`/`BOARD_HEIGHT` are the
  constants 10 and 20 from the configuration section;
* a `Piece` stores kind, rotation index and anchor `(x, y)`; the Python
  field `shape` is always `PIECES[type][rotation]` (set in `__init__` and
  kept in sync by `rotate`), so here it is the derived function
  `Piece.shape`;
* the engine's random piece generation (`Piece()` with no argument) is the
  only source of nondeterminism; operations that spawn a piece take the
  freshly drawn piece as an explicit argument (`np`);
* the timing fields `last_fall_time` / `fall_speed` and the `update`
  method only drive the gravity clock and are not part of any property
  studied here, so they are omitted from the engine state;
* the `while` loop of `hard_drop` is embedded fuel-based
  (`Tetris.hard_drop_aux`), returning the final state together with the
  number of `move_down` calls made, or `none` if the fuel runs out.
-/

/-- The seven piece kinds of the catalog `PIECES`. -/
inductive PieceType where
  | I | O | T | S | Z | J | L
deriving DecidableEq

/-- One rotation state: a rectangular boolean occupancy matrix. -/
abbrev Shape := List (List Bool)

/-- The shape catalog: for each kind, its ordered list of rotation states,
transcribed from the `PIECES` dictionary (1 ↦ `true`, 0 ↦ `false`). -/
def PIECES : PieceType → List Shape
  | .I => [[[true, true, true, true]],
           [[true], [true], [true], [true]]]
  | .O => [[[true, true],
            [true, true]]]
  | .T => [[[false, true, false],
            [true, true, true]],
           [[true, false],
            [true, true],
            [true, false]],
           [[true, true, true],
            [false, true, false]],
           [[false, true],
            [true, true],
            [false, true]]]
  | .S => [[[false, true, true],
            [true, true, false]],
           [[true, false],
            [true, true],
            [false, true]]]
  | .Z => [[[true, true, false],
            [false, true, true]],
           [[false, true],
            [true, true],
            [true, false]]]
  | .J => [[[true, false, false],
            [true, true, true]],
           [[true, true],
            [true, false],
            [true, false]],
           [[true, true, true],
            [false, false, true]],
           [[false, true],
            [false, true],
            [true, true]]]
  | .L => [[[false, false, true],
            [true, true, true]],
           [[true, false],
            [true, false],
            [true, true]],
           [[true, true, true],
            [true, false, false]],
           [[true, true],
            [false, true],
            [false, true]]]

/-- A live piece: kind, current rotation index, anchor column `x` and row
`y` (`Piece.__init__` starts at rotation 0, x = 3, y = 0). -/
structure Piece where
  type : PieceType
  rotation : ℕ
  x : ℤ
  y : ℤ
deriving DecidableEq

namespace Piece

/-- The Python field `shape`, always `self.rotations[self.rotation]`. -/
def shape (p : Piece) : Shape :=
  (PIECES p.type).getD p.rotation []

/-- `Piece.rotate`: advance the rotation index cyclically (the stored
`shape` field follows, being derived here). The anchor is untouched. -/
def rotate (p : Piece) : Piece :=
  { p with rotation := (p.rotation + 1) % (PIECES p.type).length }

/-- The (column offset, row offset) of every occupied cell of a shape, in
the row-major order of the Python double loop in `get_positions`. -/
def cellOffsets (s : Shape) : List (ℕ × ℕ) :=
  s.enum.flatMap fun rr =>
    rr.2.enum.filterMap fun cc =>
      if cc.2 then some (cc.1, rr.1) else none

/-- `Piece.get_positions`: absolute coordinates `(x + col, y + row)` of
every occupied cell. -/
def get_positions (p : Piece) : List (ℤ × ℤ) :=
  (cellOffsets p.shape).map fun o => (p.x + o.1, p.y + o.2)

end Piece

/-! ## The board -/

/-- `BOARD_WIDTH` (10 columns). -/
def BOARD_WIDTH : ℤ := 10

/-- `BOARD_HEIGHT` (20 rows). -/
def BOARD_HEIGHT : ℤ := 20

/-- The board grid: `grid[row][col]`, `none` for an empty cell. -/
abbrev Grid := List (List (Option PieceType))

namespace Board

/-- Read `grid[y][x]` (both indices in range whenever the callers reach
the access, so out-of-range defaults are never observed there). -/
def cellAt (g : Grid) (y x : ℤ) : Option PieceType :=
  (g.getD y.toNat []).getD x.toNat none

/-- The per-cell test of `Board.is_valid_position`, in the Python order:
horizontal bounds, bottom bound, then occupancy (only for `y ≥ 0`). -/
def cellFree (g : Grid) (c : ℤ × ℤ) : Bool :=
  if c.1 < 0 ∨ BOARD_WIDTH ≤ c.1 then false
  else if BOARD_HEIGHT ≤ c.2 then false
  else if 0 ≤ c.2 ∧ cellAt g c.2 c.1 ≠ none then false
  else true

/-- `Board.is_valid_position`: every occupied cell of the piece passes
`cellFree` (the Python loop returns `False` at the first failing cell). -/
def is_valid_position (g : Grid) (p : Piece) : Bool :=
  p.get_positions.all (cellFree g)

/-- Write `grid[y][x] = v` (a no-op when the row index is out of range,
which the callers never produce). -/
def setCell (g : Grid) (y x : ℕ) (v : Option PieceType) : Grid :=
  g.set y ((g.getD y []).set x v)

/-- `Board.lock_piece`: write the piece's kind into every occupied cell
with row ≥ 0; cells above the top are discarded. -/
def lock_piece (g : Grid) (p : Piece) : Grid :=
  p.get_positions.foldl
    (fun acc c => if 0 ≤ c.2 then setCell acc c.2.toNat c.1.toNat (some p.type) else acc)
    g

/-- An all-empty row, `[None for _ in range(width)]`. -/
def emptyRow : List (Option PieceType) :=
  List.replicate 10 none

/-- `Board.clear_lines`: keep the rows that still contain an empty cell,
count the complete rows, and put that many empty rows back on top.
Returns the new grid and the count. -/
def clear_lines (g : Grid) : Grid × ℕ :=
  let new_grid := g.filter fun r => decide ((none : Option PieceType) ∈ r)
  let lines_cleared := g.countP fun r => !decide ((none : Option PieceType) ∈ r)
  (List.replicate lines_cleared emptyRow ++ new_grid, lines_cleared)

/-- `Board.is_game_over`: some cell of the top row is occupied. -/
def is_game_over (g : Grid) : Bool :=
  (g.getD 0 []).any fun cell => cell ≠ none

/-- The grid built by `Board.__init__` and reassigned by `Board.reset`. -/
def reset : Grid :=
  List.replicate 20 emptyRow

end Board

/-! ## The match engine -/

/-- The engine state of class `Tetris` (the two timing fields are
omitted, see the module comment). -/
structure Tetris where
  board : Grid
  current_piece : Piece
  next_piece : Piece
  score : ℕ
  lines_cleared : ℕ
  game_over : Bool
deriving DecidableEq

namespace Tetris

/-- The wall-kick offset lists of `Tetris.rotate_piece` (`kick_tests` in
the source), chosen by the active piece's kind. -/
def kick_tests : PieceType → List (ℤ × ℤ)
  | .I => [(1, 0), (-1, 0), (2, 0), (-2, 0), (3, 0), (-3, 0),
           (0, -1), (1, -1), (-1, -1)]
  | _ => [(1, 0), (-1, 0), (2, 0), (-2, 0),
          (0, -1), (1, -1), (-1, -1)]

/-- `Tetris.lock_piece`: commit the active piece, clear complete lines,
update score (`lines * 100 * lines`) and line count, then either flag
game over (top row occupied, the active piece stays) or promote
`next_piece` and install the freshly drawn piece `np` as the new preview
(flagging game over if the promoted piece does not fit). -/
def lock_piece (t : Tetris) (np : Piece) : Tetris :=
  let g1 := Board.lock_piece t.board t.current_piece
  let cleared := Board.clear_lines g1
  let score' := if 0 < cleared.2 then t.score + cleared.2 * 100 * cleared.2 else t.score
  let lines' := if 0 < cleared.2 then t.lines_cleared + cleared.2 else t.lines_cleared
  if Board.is_game_over cleared.1 then
    { t with board := cleared.1, score := score', lines_cleared := lines',
             game_over := true }
  else
    let t' := { t with board := cleared.1, score := score', lines_cleared := lines',
                       current_piece := t.next_piece, next_piece := np }
    if Board.is_valid_position cleared.1 t.next_piece then t'
    else { t' with game_over := true }

/-- `Tetris.move_left`: shift the anchor one column left, reverting when
the new position is invalid. -/
def move_left (t : Tetris) : Tetris :=
  let p := { t.current_piece with x := t.current_piece.x - 1 }
  if Board.is_valid_position t.board p then { t with current_piece := p } else t

/-- `Tetris.move_right`: shift the anchor one column right, reverting when
the new position is invalid. -/
def move_right (t : Tetris) : Tetris :=
  let p := { t.current_piece with x := t.current_piece.x + 1 }
  if Board.is_valid_position t.board p then { t with current_piece := p } else t

/-- `Tetris.move_down`: shift the anchor one row down; on collision revert
and run lock-and-spawn, returning `false`; otherwise return `true`. -/
def move_down (t : Tetris) (np : Piece) : Tetris × Bool :=
  let p := { t.current_piece with y := t.current_piece.y + 1 }
  if Board.is_valid_position t.board p then ({ t with current_piece := p }, true)
  else (lock_piece t np, false)

/-- One `move_down` call, keeping only the state. -/
def mdStep (np : Piece) (t : Tetris) : Tetris :=
  (move_down t np).1

/-- The candidate piece tried for kick offset `k`: the rotated piece
re-anchored at the pre-rotation anchor displaced by `k` (`rotate` never
moves the anchor, so the pre-rotation anchor is the rotated piece's). -/
def kickTarget (t : Tetris) (k : ℤ × ℤ) : Piece :=
  { Piece.rotate t.current_piece with
      x := t.current_piece.x + k.1, y := t.current_piece.y + k.2 }

/-- `Tetris.rotate_piece`: rotate in place; if invalid, try the kick
offsets in order from the pre-rotation anchor (each offset absolute, not
cumulative); if none fits, revert everything (rotation, shape and
anchor), i.e. return the state unchanged. -/
def rotate_piece (t : Tetris) : Tetris :=
  let rotated := Piece.rotate t.current_piece
  if Board.is_valid_position t.board rotated then { t with current_piece := rotated }
  else
    match (kick_tests t.current_piece.type).find? (fun k =>
        Board.is_valid_position t.board (kickTarget t k)) with
    | some k => { t with current_piece := kickTarget t k }
    | none => t

/-- The `while self.move_down(): pass` loop of `Tetris.hard_drop`,
fuel-based: returns the final state and the number of `move_down` calls
made, or `none` when the fuel runs out before the piece locks. -/
def hard_drop_aux (np : Piece) : ℕ → Tetris → Option (Tetris × ℕ)
  | 0, _ => none
  | fuel + 1, t =>
    let r := move_down t np
    if r.2 then (hard_drop_aux np fuel r.1).map fun rc => (rc.1, rc.2 + 1)
    else some (r.1, 1)

end Tetris

/-! ## Concrete states used to instantiate the theorems -/

/-- The grid shape predicate: 20 rows of 10 cells each. -/
def gridWF (g : Grid) : Prop :=
  g.length = 20 ∧ ∀ r ∈ g, r.length = 10

/-- A fresh match whose active piece is an `O` at the spawn anchor (3, 0)
and whose preview piece is an `I`. -/
def tO : Tetris :=
  ⟨Board.reset, ⟨.O, 0, 3, 0⟩, ⟨.I, 0, 3, 0⟩, 0, 0, false⟩

/-- A piece standing in for the random draw made at lock time. -/
def drawT : Piece :=
  ⟨.T, 0, 3, 0⟩

/-- The bottom-row pattern left by the `O` piece after its drop: kind `O`
in columns 3 and 4. -/
def oRow : List (Option PieceType) :=
  [none, none, none, some .O, some .O, none, none, none, none, none]

/-- A row walled with `J` blocks in columns 1–9, column 0 free. -/
def wallRow : List (Option PieceType) :=
  none :: List.replicate 9 (some .J)

/-- A board whose bottom five rows are `wallRow`: a one-column well at
column 0. -/
def wellGrid : Grid :=
  List.replicate 15 Board.emptyRow ++ List.replicate 5 wallRow

/-- A vertical `I` piece sitting in the well: rotating it (and every wall
kick) collides. -/
def tWell : Tetris :=
  ⟨wellGrid, ⟨.I, 1, 0, 16⟩, ⟨.O, 0, 3, 0⟩, 0, 0, false⟩

/-- A `T` piece in rotation 3 hugging the left wall at column −1: the
in-place rotation is out of bounds but the first kick (1, 0) fits. -/
def tLeftWall : Tetris :=
  ⟨Board.reset, ⟨.T, 3, -1, 0⟩, ⟨.O, 0, 3, 0⟩, 0, 0, false⟩

/-- A game-over state with an `O` piece free to move: the movement
methods are not guarded by the flag. -/
def tOver : Tetris :=
  ⟨Board.reset, ⟨.O, 0, 3, 0⟩, ⟨.I, 0, 3, 0⟩, 0, 0, true⟩

/-- A horizontal `I` piece two rows above the visible board: a valid
position from which `hard_drop` needs 22 `move_down` calls. -/
def tHigh : Tetris :=
  ⟨Board.reset, ⟨.I, 0, 3, -2⟩, ⟨.O, 0, 3, 0⟩, 0, 0, false⟩

/-- A 20-row grid whose bottom row is complete (all `J`). -/
def oneFullGrid : Grid :=
  List.replicate 19 Board.emptyRow ++ [List.replicate 10 (some PieceType.J)]

/-- A `T` piece in mid-cycle rotation state with an arbitrary anchor. -/
def pT : Piece :=
  ⟨.T, 2, 5, 7⟩

/-! ## Theorems -/

theorem cellFree_eq_false_iff (g : Grid) (c : ℤ × ℤ) :
    Board.cellFree g c = false ↔
      c.1 < 0 ∨ 10 ≤ c.1 ∨ 20 ≤ c.2 ∨ (0 ≤ c.2 ∧ Board.cellAt g c.2 c.1 ≠ none) := by
  unfold Board.cellFree BOARD_WIDTH BOARD_HEIGHT
  split_ifs with h1 h2 h3 <;> simp_all
  tauto

/-- C1: `Board.is_valid_position` returns `false` iff some occupied cell
of the piece is left of column 0, at column ≥ 10, at row ≥ 20, or sits at
row ≥ 0 on an already occupied grid cell; cells with row < 0 are never
checked against the grid (the occupancy disjunct carries the `0 ≤ row`
guard). -/
theorem is_valid_position_false_iff (g : Grid) (p : Piece) :
    Board.is_valid_position g p = false ↔
      ∃ c ∈ p.get_positions,
        c.1 < 0 ∨ 10 ≤ c.1 ∨ 20 ≤ c.2 ∨ (0 ≤ c.2 ∧ Board.cellAt g c.2 c.1 ≠ none) := by
  rw [Board.is_valid_position, List.all_eq_false]
  constructor
  · rintro ⟨c, hc, hfree⟩
    exact ⟨c, hc, (cellFree_eq_false_iff g c).mp (by simpa using hfree)⟩
  · rintro ⟨c, hc, hbad⟩
    exact ⟨c, hc, by simp [(cellFree_eq_false_iff g c).mpr hbad]⟩

/-- C2: on a 20-row board, `clear_lines` returns the number `k` of
complete rows (no empty cell), replaces the grid by `k` empty rows on top
of the incomplete rows (a sublist of the original, so relative order is
preserved), and the result is 20 rows high again. -/
theorem clear_lines_spec (g : Grid) (h : g.length = 20) :
    (Board.clear_lines g).2 = g.countP (fun r => !decide ((none : Option PieceType) ∈ r)) ∧
    (Board.clear_lines g).1 =
      List.replicate (Board.clear_lines g).2 Board.emptyRow ++
        g.filter (fun r => decide ((none : Option PieceType) ∈ r)) ∧
    (Board.clear_lines g).1.length = 20 ∧
    (g.filter (fun r => decide ((none : Option PieceType) ∈ r))).Sublist g := by
  refine ⟨rfl, rfl, ?_, List.filter_sublist g⟩
  have hf := List.countP_eq_length_filter (fun r => decide ((none : Option PieceType) ∈ r)) g
  have hc : g.length = g.countP (fun r => decide ((none : Option PieceType) ∈ r)) +
      g.countP (fun r => !decide ((none : Option PieceType) ∈ r)) := by
    simpa using List.length_eq_countP_add_countP
      (fun r => decide ((none : Option PieceType) ∈ r)) g
  simp only [Board.clear_lines, List.length_append, List.length_replicate]
  omega

/-- C2 witness: a 20-row grid with exactly one complete row. -/
theorem clear_lines_spec_witness :
    oneFullGrid.length = 20 ∧
    ((Board.clear_lines oneFullGrid).2 =
        oneFullGrid.countP (fun r => !decide ((none : Option PieceType) ∈ r)) ∧
      (Board.clear_lines oneFullGrid).1 =
        List.replicate (Board.clear_lines oneFullGrid).2 Board.emptyRow ++
          oneFullGrid.filter (fun r => decide ((none : Option PieceType) ∈ r)) ∧
      (Board.clear_lines oneFullGrid).1.length = 20 ∧
      (oneFullGrid.filter
          (fun r => decide ((none : Option PieceType) ∈ r))).Sublist oneFullGrid) :=
  ⟨rfl, clear_lines_spec oneFullGrid rfl⟩

/-- C3: at every lock-and-spawn, with `n` the number of lines cleared by
the lock, the score grows by exactly `n² × 100` and the cumulative line
counter by `n` when `n > 0`, and both are unchanged when `n = 0`. -/
theorem lock_piece_scoring (t : Tetris) (np : Piece) :
    (0 < (Board.clear_lines (Board.lock_piece t.board t.current_piece)).2 →
      (t.lock_piece np).score = t.score +
          (Board.clear_lines (Board.lock_piece t.board t.current_piece)).2 ^ 2 * 100 ∧
      (t.lock_piece np).lines_cleared = t.lines_cleared +
          (Board.clear_lines (Board.lock_piece t.board t.current_piece)).2) ∧
    ((Board.clear_lines (Board.lock_piece t.board t.current_piece)).2 = 0 →
      (t.lock_piece np).score = t.score ∧
      (t.lock_piece np).lines_cleared = t.lines_cleared) := by
  have hs : (t.lock_piece np).score =
      if 0 < (Board.clear_lines (Board.lock_piece t.board t.current_piece)).2 then
        t.score + (Board.clear_lines (Board.lock_piece t.board t.current_piece)).2 * 100 *
          (Board.clear_lines (Board.lock_piece t.board t.current_piece)).2
      else t.score := by
    simp only [Tetris.lock_piece]
    split_ifs <;> rfl
  have hl : (t.lock_piece np).lines_cleared =
      if 0 < (Board.clear_lines (Board.lock_piece t.board t.current_piece)).2 then
        t.lines_cleared + (Board.clear_lines (Board.lock_piece t.board t.current_piece)).2
      else t.lines_cleared := by
    simp only [Tetris.lock_piece]
    split_ifs <;> rfl
  constructor
  · intro hn
    rw [hs, hl, if_pos hn, if_pos hn]
    exact ⟨by ring, rfl⟩
  · intro hn
    rw [hs, hl, if_neg (by omega), if_neg (by omega)]
    exact ⟨rfl, rfl⟩

/-- `List.find?` returns the element at the first index whose test
succeeds: if the test fails strictly before index `i` and succeeds at
`i`, the search stops exactly there. -/
theorem find?_eq_getD_of_first {α : Type} (p : α → Bool) (d : α) :
    ∀ (l : List α) (i : ℕ), i < l.length →
      (∀ j, j < i → p (l.getD j d) = false) → p (l.getD i d) = true →
      l.find? p = some (l.getD i d) := by
  intro l
  induction l with
  | nil => intro i hi; simp at hi
  | cons a tl ih =>
    intro i hi hbef hcur
    cases i with
    | zero =>
      simp only [List.getD_cons_zero] at hcur
      simp [List.find?, hcur]
    | succ i =>
      have ha : p a = false := by
        have := hbef 0 (Nat.succ_pos i)
        simpa using this
      have : tl.find? p = some (tl.getD i d) := by
        refine ih i (by simpa using hi) ?_ (by simpa using hcur)
        intro j hj
        have := hbef (j + 1) (by omega)
        simpa using this
      simp [List.find?, ha, this]

/-- C4: when the in-place rotation and every wall-kick offset are all
invalid, `Tetris.rotate_piece` leaves the state completely unchanged —
rotation index, shape and anchor are their pre-rotation values and no
other engine or board state moves. -/
theorem rotate_piece_all_kicks_fail (t : Tetris)
    (hrot : Board.is_valid_position t.board (Piece.rotate t.current_piece) = false)
    (hkick : ∀ k ∈ Tetris.kick_tests t.current_piece.type,
      Board.is_valid_position t.board (t.kickTarget k) = false) :
    t.rotate_piece = t := by
  have hnone : (Tetris.kick_tests t.current_piece.type).find?
      (fun k => Board.is_valid_position t.board (t.kickTarget k)) = none := by
    rw [List.find?_eq_none]
    intro k hk
    simp [hkick k hk]
  simp only [Tetris.rotate_piece, hrot, Bool.false_eq_true, if_false, hnone]

/-- C4 witness: a vertical `I` piece in a one-column well; the rotation
and all nine `I` kicks collide, and `rotate_piece` is the identity
there. -/
theorem rotate_piece_all_kicks_fail_witness :
    (Board.is_valid_position tWell.board (Piece.rotate tWell.current_piece) = false ∧
      ∀ k ∈ Tetris.kick_tests tWell.current_piece.type,
        Board.is_valid_position tWell.board (tWell.kickTarget k) = false) ∧
    tWell.rotate_piece = tWell :=
  ⟨⟨by decide, by decide⟩, rotate_piece_all_kicks_fail tWell (by decide) (by decide)⟩

/-- C5: `rotate_piece` first tries the rotation at the unchanged anchor
(accepting it when valid); otherwise it tries the kick offsets in the
listed order, each applied to the pre-rotation anchor, accepting the
first offset whose position is valid; the offset list is the
nine-element one for kind `I` and the seven-element one for every other
kind. -/
theorem rotate_piece_kick_order (t : Tetris) (i : ℕ)
    (hi : i < (Tetris.kick_tests t.current_piece.type).length)
    (hrot : Board.is_valid_position t.board (Piece.rotate t.current_piece) = false)
    (hbefore : ∀ j, j < i → Board.is_valid_position t.board
        (t.kickTarget ((Tetris.kick_tests t.current_piece.type).getD j (0, 0))) = false)
    (hvalid : Board.is_valid_position t.board
        (t.kickTarget ((Tetris.kick_tests t.current_piece.type).getD i (0, 0))) = true) :
    t.rotate_piece = { t with current_piece :=
        (t.kickTarget ((Tetris.kick_tests t.current_piece.type).getD i (0, 0))) } ∧
    (∀ s : Tetris, Board.is_valid_position s.board (Piece.rotate s.current_piece) = true →
      s.rotate_piece = { s with current_piece := Piece.rotate s.current_piece }) ∧
    Tetris.kick_tests PieceType.I =
      [(1, 0), (-1, 0), (2, 0), (-2, 0), (3, 0), (-3, 0), (0, -1), (1, -1), (-1, -1)] ∧
    (∀ k, k ≠ PieceType.I → Tetris.kick_tests k =
      [(1, 0), (-1, 0), (2, 0), (-2, 0), (0, -1), (1, -1), (-1, -1)]) := by
  refine ⟨?_, ?_, rfl, ?_⟩
  · have hfind : (Tetris.kick_tests t.current_piece.type).find?
        (fun k => Board.is_valid_position t.board (t.kickTarget k)) =
        some ((Tetris.kick_tests t.current_piece.type).getD i (0, 0)) :=
      find?_eq_getD_of_first _ (0, 0) _ i hi hbefore hvalid
    simp only [Tetris.rotate_piece, hrot, Bool.false_eq_true, if_false, hfind]
  · intro s hs
    simp only [Tetris.rotate_piece, hs, if_true]
  · intro k hk
    cases k <;> first | rfl | exact absurd rfl hk

/-- C5 witness: a `T` piece against the left wall whose in-place rotation
is out of bounds; the first kick (1, 0) succeeds. -/
theorem rotate_piece_kick_order_witness :
    (0 < (Tetris.kick_tests tLeftWall.current_piece.type).length ∧
      Board.is_valid_position tLeftWall.board (Piece.rotate tLeftWall.current_piece) = false ∧
      Board.is_valid_position tLeftWall.board
        (tLeftWall.kickTarget
          ((Tetris.kick_tests tLeftWall.current_piece.type).getD 0 (0, 0))) = true) ∧
    tLeftWall.rotate_piece = { tLeftWall with current_piece :=
        (tLeftWall.kickTarget
          ((Tetris.kick_tests tLeftWall.current_piece.type).getD 0 (0, 0))) } :=
  ⟨⟨by decide, by decide, by decide⟩,
    (rotate_piece_kick_order tLeftWall 0 (by decide) (by decide)
      (fun j hj => absurd hj (Nat.not_lt_zero j)) (by decide)).1⟩

/-- C6 counterexample: in a game-over state with a free `O` piece,
`move_left` still shifts the anchor, so it is not a no-op — the methods
themselves never consult the flag (the input loop, not the engine,
refuses input after game over). -/
theorem game_over_moves_cex :
    tOver.game_over = true ∧ Tetris.move_left tOver ≠ tOver := by
  decide

/-- C6 (amended): `move_left`, `move_right` and `rotate_piece` do not
check the game-over flag; in a game-over state they behave exactly as
with the flag cleared (performing the usual tentative move with
revert-on-collision) and merely preserve the flag. -/
theorem moves_ignore_game_over_flag (t : Tetris) (b : Bool) :
    Tetris.move_left { t with game_over := b } =
      { Tetris.move_left t with game_over := b } ∧
    Tetris.move_right { t with game_over := b } =
      { Tetris.move_right t with game_over := b } ∧
    Tetris.rotate_piece { t with game_over := b } =
      { Tetris.rotate_piece t with game_over := b } := by
  refine ⟨?_, ?_, ?_⟩
  · by_cases h : Board.is_valid_position t.board
        { t.current_piece with x := t.current_piece.x - 1 } = true
    · simp [Tetris.move_left, h]
    · simp [Tetris.move_left, h]
  · by_cases h : Board.is_valid_position t.board
        { t.current_piece with x := t.current_piece.x + 1 } = true
    · simp [Tetris.move_right, h]
    · simp [Tetris.move_right, h]
  · by_cases hrot : Board.is_valid_position t.board (Piece.rotate t.current_piece) = true
    · simp [Tetris.rotate_piece, hrot]
    · cases hfind : (Tetris.kick_tests t.current_piece.type).find?
          (fun k => Board.is_valid_position t.board (t.kickTarget k)) with
      | none =>
        simp only [Tetris.kickTarget] at hfind
        simp only [Tetris.rotate_piece, Tetris.kickTarget, hrot, Bool.false_eq_true, if_false]
        rw [hfind]
      | some k =>
        simp only [Tetris.kickTarget] at hfind
        simp only [Tetris.rotate_piece, Tetris.kickTarget, hrot, Bool.false_eq_true, if_false]
        rw [hfind]

/-- C7 counterexample: from an empty board with the `O` piece at anchor
(3, 0), the 19th `move_down` call already returns `false` (the piece is
two cells tall, so only 18 drops fit in 20 rows), refuting "returns true
on each of the first 19 calls". -/
theorem o_piece_drop_cex :
    ((List.range 19).all fun j =>
      (Tetris.move_down ((Tetris.mdStep drawT)^[j] tO) drawT).2) = false := by
  decide

/-- C7 (amended): from an empty board with the `O` piece at anchor
(3, 0), `move_down` returns `true` on each of the first 18 calls and the
19th call returns `false` and locks, writing kind `O` into the bottom two
rows (18 and 19) at columns 3 and 4 and promoting the preview piece. -/
theorem o_piece_drop_scenario :
    ((List.range 18).all fun j =>
      (Tetris.move_down ((Tetris.mdStep drawT)^[j] tO) drawT).2) = true ∧
    (Tetris.move_down ((Tetris.mdStep drawT)^[18] tO) drawT).2 = false ∧
    ((Tetris.mdStep drawT)^[19] tO).board =
      List.replicate 18 Board.emptyRow ++ [oRow, oRow] ∧
    ((Tetris.mdStep drawT)^[19] tO).current_piece = tO.next_piece := by
  decide

/-- `Piece.rotate` iterated `m + 1` times only advances the rotation
index, by `m + 1` modulo the kind's rotation count. -/
theorem rotate_iterate (p : Piece) (m : ℕ) :
    Piece.rotate^[m + 1] p =
      { p with rotation := (p.rotation + (m + 1)) % (PIECES p.type).length } := by
  induction m with
  | zero => simp [Piece.rotate]
  | succ m ih =>
    rw [Function.iterate_succ_apply', ih]
    simp only [Piece.rotate]
    congr 1
    rw [Nat.mod_add_mod]
    congr 1

/-- C8: rotating a piece as many times as its kind has rotation states
(1 for `O`, 2 for `I`/`S`/`Z`, 4 for `T`/`J`/`L`) restores the piece
exactly (rotation index, hence shape matrix, and anchor), and a single
`rotate` never touches the anchor. -/
theorem rotate_cycle (p : Piece) (h : p.rotation < (PIECES p.type).length) :
    Piece.rotate^[(PIECES p.type).length] p = p ∧
    (∀ q : Piece, (Piece.rotate q).x = q.x ∧ (Piece.rotate q).y = q.y) ∧
    (PIECES PieceType.O).length = 1 ∧ (PIECES PieceType.I).length = 2 ∧
    (PIECES PieceType.S).length = 2 ∧ (PIECES PieceType.Z).length = 2 ∧
    (PIECES PieceType.T).length = 4 ∧ (PIECES PieceType.J).length = 4 ∧
    (PIECES PieceType.L).length = 4 := by
  refine ⟨?_, fun q => ⟨rfl, rfl⟩, rfl, rfl, rfl, rfl, rfl, rfl, rfl⟩
  have hn : 0 < (PIECES p.type).length := by omega
  obtain ⟨n, hn2⟩ : ∃ n, (PIECES p.type).length = n + 1 :=
    ⟨(PIECES p.type).length - 1, by omega⟩
  have hiter := rotate_iterate p n
  rw [hn2, hiter]
  have hrot : (p.rotation + (n + 1)) % (PIECES p.type).length = p.rotation := by
    rw [hn2] at h ⊢
    rw [Nat.add_mod_right, Nat.mod_eq_of_lt h]
  rw [hrot]

/-- C8 witness: a `T` piece at rotation index 2 with anchor (5, 7). -/
theorem rotate_cycle_witness :
    pT.rotation < (PIECES pT.type).length ∧
    (Piece.rotate^[(PIECES pT.type).length] pT = pT ∧
      (∀ q : Piece, (Piece.rotate q).x = q.x ∧ (Piece.rotate q).y = q.y) ∧
      (PIECES PieceType.O).length = 1 ∧ (PIECES PieceType.I).length = 2 ∧
      (PIECES PieceType.S).length = 2 ∧ (PIECES PieceType.Z).length = 2 ∧
      (PIECES PieceType.T).length = 4 ∧ (PIECES PieceType.J).length = 4 ∧
      (PIECES PieceType.L).length = 4) :=
  ⟨by decide, rotate_cycle pT (by decide)⟩

/-- `Board.setCell` keeps the 20 × 10 grid shape. -/
theorem setCell_gridWF (g : Grid) (y x : ℕ) (v : Option PieceType)
    (h : gridWF g) : gridWF (Board.setCell g y x v) := by
  obtain ⟨hlen, hrows⟩ := h
  by_cases hy : y < g.length
  · refine ⟨by simp [Board.setCell, hlen], ?_⟩
    intro r hr
    rcases List.mem_or_eq_of_mem_set hr with hmem | hset
    · exact hrows r hmem
    · have hg : g.getD y [] = g[y] := List.getD_eq_getElem g [] hy
      have : g[y] ∈ g := List.getElem_mem hy
      rw [hset, hg, List.length_set]
      exact hrows _ this
  · unfold Board.setCell
    rw [List.set_eq_of_length_le (by omega)]
    exact ⟨hlen, hrows⟩

/-- `Board.lock_piece` keeps the 20 × 10 grid shape, whatever the piece. -/
theorem lock_piece_gridWF (g : Grid) (p : Piece) (h : gridWF g) :
    gridWF (Board.lock_piece g p) := by
  unfold Board.lock_piece
  generalize p.get_positions = l
  induction l generalizing g with
  | nil => exact h
  | cons c tl ih =>
    simp only [List.foldl_cons]
    by_cases hc : (0 : ℤ) ≤ c.2
    · rw [if_pos hc]
      exact ih _ (setCell_gridWF _ _ _ _ h)
    · rw [if_neg hc]
      exact ih _ h

/-- `Board.clear_lines` keeps the 20 × 10 grid shape. -/
theorem clear_lines_gridWF (g : Grid) (h : gridWF g) :
    gridWF (Board.clear_lines g).1 := by
  obtain ⟨hlen, hrows⟩ := h
  constructor
  · have hf := List.countP_eq_length_filter
      (fun r => decide ((none : Option PieceType) ∈ r)) g
    have hc : g.length = g.countP (fun r => decide ((none : Option PieceType) ∈ r)) +
        g.countP (fun r => !decide ((none : Option PieceType) ∈ r)) := by
      simpa using List.length_eq_countP_add_countP
        (fun r => decide ((none : Option PieceType) ∈ r)) g
    simp only [Board.clear_lines, List.length_append, List.length_replicate]
    omega
  · intro r hr
    simp only [Board.clear_lines] at hr
    rcases List.mem_append.mp hr with hrep | hfil
    · rw [List.eq_of_mem_replicate hrep]
      rfl
    · exact hrows r (List.mem_filter.mp hfil).1

/-- C10: the grid-shape invariant — 20 rows of 10 optional-kind cells —
holds for the initial/reset grid and is preserved by `lock_piece` (for
any piece) and by `clear_lines`. -/
theorem board_shape_invariant (g : Grid) (p : Piece) (h : gridWF g) :
    gridWF Board.reset ∧ gridWF (Board.lock_piece g p) ∧
    gridWF (Board.clear_lines g).1 := by
  refine ⟨⟨rfl, ?_⟩, lock_piece_gridWF g p h, clear_lines_gridWF g h⟩
  intro r hr
  rw [List.eq_of_mem_replicate hr]
  rfl

/-- C10 witness: the empty board and a freshly spawned `O` piece. -/
theorem board_shape_invariant_witness :
    gridWF Board.reset ∧
    (gridWF Board.reset ∧
      gridWF (Board.lock_piece Board.reset ⟨PieceType.O, 0, 3, 0⟩) ∧
      gridWF (Board.clear_lines Board.reset).1) :=
  ⟨⟨rfl, fun r hr => by rw [List.eq_of_mem_replicate hr]; rfl⟩,
    board_shape_invariant Board.reset ⟨PieceType.O, 0, 3, 0⟩
      ⟨rfl, fun r hr => by rw [List.eq_of_mem_replicate hr]; rfl⟩⟩

/-- Every occupied cell of a piece lies at or below the anchor row. -/
theorem get_positions_y_lb (p : Piece) :
    ∀ c ∈ p.get_positions, p.y ≤ c.2 := by
  intro c hc
  simp only [Piece.get_positions, List.mem_map] at hc
  obtain ⟨o, _, rfl⟩ := hc
  simp only
  omega

/-- A cell passing `cellFree` lies strictly above row 20. -/
theorem cellFree_row_lt (g : Grid) (c : ℤ × ℤ)
    (h : Board.cellFree g c = true) : c.2 < 20 := by
  unfold Board.cellFree BOARD_WIDTH BOARD_HEIGHT at h
  split_ifs at h with h1 h2 h3
  omega

/-- A piece with at least one occupied cell sitting at a valid position
has its anchor row at most 19. -/
theorem valid_y_le (g : Grid) (p : Piece)
    (hval : Board.is_valid_position g p = true)
    (hne : p.get_positions ≠ []) : p.y ≤ 19 := by
  obtain ⟨c, hc⟩ := List.exists_mem_of_ne_nil _ hne
  have h1 := get_positions_y_lb p c hc
  have h2 : Board.cellFree g c = true := by
    rw [Board.is_valid_position, List.all_eq_true] at hval
    exact hval c hc
  have h3 := cellFree_row_lt g c h2
  omega

/-- The boolean returned by `move_down` is exactly the validity of the
piece shifted one row down. -/
theorem move_down_snd_eq (t : Tetris) (np : Piece) :
    (Tetris.move_down t np).2 =
      Board.is_valid_position t.board
        { t.current_piece with y := t.current_piece.y + 1 } := by
  simp only [Tetris.move_down]
  split <;> simp_all

/-- A successful `move_down` only shifts the anchor one row down. -/
theorem move_down_fst_true (t : Tetris) (np : Piece)
    (h : (Tetris.move_down t np).2 = true) :
    (Tetris.move_down t np).1 =
      { t with current_piece := { t.current_piece with y := t.current_piece.y + 1 } } := by
  rw [move_down_snd_eq] at h
  simp only [Tetris.move_down]
  rw [if_pos h]

/-- A failed `move_down` runs lock-and-spawn on the unmoved state. -/
theorem move_down_fst_false (t : Tetris) (np : Piece)
    (h : (Tetris.move_down t np).2 = false) :
    (Tetris.move_down t np).1 = Tetris.lock_piece t np := by
  rw [move_down_snd_eq] at h
  simp only [Tetris.move_down]
  rw [if_neg (by simp [h])]

/-- Lock-and-spawn either raises the game-over flag or promotes the
preview piece to active. -/
theorem lock_piece_promote (t : Tetris) (np : Piece) :
    (Tetris.lock_piece t np).game_over = true ∨
    (Tetris.lock_piece t np).current_piece = t.next_piece := by
  simp only [Tetris.lock_piece]
  split_ifs <;> simp

/-- Shifting the anchor does not create or destroy occupied cells. -/
theorem get_positions_ne_nil_shift (p : Piece) (v : ℤ)
    (h : p.get_positions ≠ []) :
    ({ p with y := v } : Piece).get_positions ≠ [] := by
  intro hnil
  apply h
  simp only [Piece.get_positions, List.map_eq_nil_iff] at hnil ⊢
  exact hnil

/-- With enough fuel — one unit over the anchor's distance to the floor —
the `hard_drop` loop reaches a failing `move_down`: it returns the state
obtained by iterating `move_down` exactly `c` times, where the first
`c − 1` calls return `true`, the `c`-th returns `false` and locks, and
`c` never exceeds `max 1 (20 − anchor row)`. -/
theorem hard_drop_aux_terminates (np : Piece) : ∀ (fuel : ℕ) (t : Tetris),
    t.current_piece.get_positions ≠ [] →
    max 1 (20 - t.current_piece.y).toNat ≤ fuel →
    ∃ s c, Tetris.hard_drop_aux np fuel t = some (s, c) ∧
      1 ≤ c ∧ c ≤ max 1 (20 - t.current_piece.y).toNat ∧
      s = (Tetris.mdStep np)^[c] t ∧
      (∀ j, j + 1 < c → (Tetris.move_down ((Tetris.mdStep np)^[j] t) np).2 = true) ∧
      (Tetris.move_down ((Tetris.mdStep np)^[c - 1] t) np).2 = false ∧
      (s.game_over = true ∨ s.current_piece = t.next_piece) := by
  intro fuel
  induction fuel with
  | zero =>
    intro t hne hf
    exfalso
    omega
  | succ fuel ih =>
    intro t hne hf
    cases hmv : (Tetris.move_down t np).2 with
    | false =>
      refine ⟨(Tetris.move_down t np).1, 1, ?_, le_refl 1, by omega, ?_, ?_, ?_, ?_⟩
      · simp [Tetris.hard_drop_aux, hmv]
      · simp [Tetris.mdStep]
      · intro j hj
        omega
      · simpa using hmv
      · rw [move_down_fst_false t np hmv]
        exact lock_piece_promote t np
    | true =>
      have hvalid : Board.is_valid_position t.board
          { t.current_piece with y := t.current_piece.y + 1 } = true := by
        rw [← move_down_snd_eq]
        exact hmv
      have hne1 : ({ t.current_piece with y := t.current_piece.y + 1 } : Piece).get_positions
          ≠ [] := get_positions_ne_nil_shift _ _ hne
      have hy : t.current_piece.y + 1 ≤ 19 := by
        have := valid_y_le t.board _ hvalid hne1
        simpa using this
      have ht1 : (Tetris.move_down t np).1 =
          { t with current_piece := { t.current_piece with y := t.current_piece.y + 1 } } :=
        move_down_fst_true t np hmv
      have hne1t : (Tetris.move_down t np).1.current_piece.get_positions ≠ [] := by
        rw [ht1]
        exact hne1
      have hf1 : max 1 (20 - (Tetris.move_down t np).1.current_piece.y).toNat ≤ fuel := by
        rw [ht1]
        simp only
        omega
      obtain ⟨s, c, haux, hc1, hcM, hs, hprev, hlast, hdone⟩ :=
        ih (Tetris.move_down t np).1 hne1t hf1
      have hMc : c ≤ max 1 (20 - (t.current_piece.y + 1)).toNat := by
        rw [ht1] at hcM
        simpa using hcM
      refine ⟨s, c + 1, ?_, by omega, by omega, ?_, ?_, ?_, ?_⟩
      · simp [Tetris.hard_drop_aux, hmv, haux]
      · rw [Function.iterate_succ_apply]
        exact hs
      · intro j hj
        cases j with
        | zero => simpa using hmv
        | succ j =>
          rw [Function.iterate_succ_apply]
          exact hprev j (by omega)
      · have hstep : (Tetris.mdStep np)^[c + 1 - 1] t =
            (Tetris.mdStep np)^[c - 1] (Tetris.move_down t np).1 := by
          have hk : c + 1 - 1 = (c - 1) + 1 := by omega
          rw [hk, Function.iterate_succ_apply]
          rfl
        rw [hstep]
        exact hlast
      · rw [ht1] at hdone
        simpa using hdone

/-- C9 counterexample: the horizontal `I` piece at anchor (3, −2) is a
valid position on the empty board, yet `hard_drop` makes 22 `move_down`
calls — one more than the claimed bound of H + 1 = 21. -/
theorem hard_drop_calls_cex :
    Board.is_valid_position tHigh.board tHigh.current_piece = true ∧
    (Tetris.hard_drop_aux drawT 30 tHigh).map Prod.snd = some 22 := by
  decide

/-- C9 (amended): for every engine state whose active piece is valid, has
at least one occupied cell, and whose anchor row is ≥ −1 (always true at
spawn), `hard_drop` is the loop running `move_down` until it returns
`false`: with fuel 22 it terminates after `c ≤ 21 = H + 1` calls, the
first `c − 1` succeed, the `c`-th fails and locks, and the final state
has either the game-over flag raised or the preview piece promoted to
active. -/
theorem hard_drop_behaviour (t : Tetris) (np : Piece)
    (_hvalid : Board.is_valid_position t.board t.current_piece = true)
    (hcells : t.current_piece.get_positions ≠ [])
    (hrow : -1 ≤ t.current_piece.y) :
    ∃ s c, Tetris.hard_drop_aux np 22 t = some (s, c) ∧ c ≤ 21 ∧
      s = (Tetris.mdStep np)^[c] t ∧
      (∀ j, j + 1 < c → (Tetris.move_down ((Tetris.mdStep np)^[j] t) np).2 = true) ∧
      (Tetris.move_down ((Tetris.mdStep np)^[c - 1] t) np).2 = false ∧
      (s.game_over = true ∨ s.current_piece = t.next_piece) := by
  obtain ⟨s, c, h1, h2, h3, h4, h5, h6, h7⟩ :=
    hard_drop_aux_terminates np 22 t hcells (by omega)
  exact ⟨s, c, h1, by omega, h4, h5, h6, h7⟩

/-- C9 witness: the spawned `O` piece on the empty board. -/
theorem hard_drop_behaviour_witness :
    (Board.is_valid_position tO.board tO.current_piece = true ∧
      tO.current_piece.get_positions ≠ [] ∧ -1 ≤ tO.current_piece.y) ∧
    (∃ s c, Tetris.hard_drop_aux drawT 22 tO = some (s, c) ∧ c ≤ 21 ∧
      s = (Tetris.mdStep drawT)^[c] tO ∧
      (∀ j, j + 1 < c → (Tetris.move_down ((Tetris.mdStep drawT)^[j] tO) drawT).2 = true) ∧
      (Tetris.move_down ((Tetris.mdStep drawT)^[c - 1] tO) drawT).2 = false ∧
      (s.game_over = true ∨ s.current_piece = tO.next_piece)) :=
  ⟨⟨by decide, by decide, by decide⟩,
    hard_drop_behaviour tO drawT (by decide) (by decide) (by decide)⟩
